import Mathlib

/-!
Shallow embedding of the clipboard-history utility (renderer `App.tsx`,
main-process `main.cjs` and the alternate main-process variant), together
with theorems settling the specification claims about it.
-/

/-! ### History store (App.tsx) -/

/-- A history entry as built by `saveToHistory` in `App.tsx`:
`{ id: Date.now(), content, timestamp: new Date().toISOString() }`. -/
structure HistItem where
  id : Nat
  content : String
  timestamp : String
deriving DecidableEq, Repr

/-- `saveToHistory` from `App.tsx`:
`prev => { const filtered = prev.filter(i => i.content !== content);
return [\x7b id: Date.now(), content, timestamp \x7d, ...filtered].slice(0, 30); }`.
`Date.now()` and the ISO timestamp are passed in as parameters `now` and `ts`. -/
def saveToHistory (now : Nat) (ts : String) (content : String) (prev : List HistItem) :
    List HistItem :=
  let filtered := prev.filter (fun i => i.content ≠ content)
  (({ id := now, content := content, timestamp := ts } : HistItem) :: filtered).take 30

/-- Folding a sequence of `saveToHistory` calls (appends) over an initial history.
Each operation carries the `Date.now()` value, the ISO timestamp and the content. -/
def appendSeq (prev : List HistItem) (ops : List (Nat × String × String)) : List HistItem :=
  ops.foldl (fun h p => saveToHistory p.1 p.2.1 p.2.2 h) prev

/-- The `historyItems` `useState` initializer in `App.tsx`:
`const saved = localStorage.getItem("clipboard-history"); return saved ? JSON.parse(saved) : [];`.
`localStorage.getItem` returning `null` is `none`; `JSON.parse` is the abstract
`parse` argument, with `parse s = none` meaning `JSON.parse(s)` throws; a thrown
exception propagates out of the initializer, modelled as `Except.error ()`
(the React render crashes).  The JS truthiness test `saved ?` treats the empty
string as absent. -/
def rehydrateHistory (parse : String → Option (List HistItem)) (saved : Option String) :
    Except Unit (List HistItem) :=
  match saved with
  | none => Except.ok []
  | some s =>
    if s = "" then Except.ok []
    else
      match parse s with
      | some h => Except.ok h
      | none => Except.error ()

/-- The renderer state touched by the `clipboard-changed` handler. -/
structure AppState where
  clipboardText : String
  historyItems : List HistItem
  isPrivacyMode : Bool
deriving DecidableEq, Repr

/-- `handleClipboard` from `App.tsx`:
`if (!isPrivacyMode && text && text !== clipboardText) { setClipboardText(text); saveToHistory(text); }`.
JS truthiness of `text` is `text ≠ ""`. -/
def handleClipboard (now : Nat) (ts : String) (text : String) (s : AppState) : AppState :=
  if ¬s.isPrivacyMode ∧ text ≠ "" ∧ text ≠ s.clipboardText then
    { s with clipboardText := text,
             historyItems := saveToHistory now ts text s.historyItems }
  else s

/-! ### Content classifier and action list (App.tsx) -/

/-- JS `String.prototype.toLowerCase`, character by character (the markers and
all inputs of interest are ASCII, where `Char.toLower` agrees with JS). -/
def strToLower (s : String) : String := String.mk (s.toList.map Char.toLower)

/-- Substring containment on character lists: `needle` occurs contiguously in
the haystack. -/
def charListIncludes (needle : List Char) : List Char → Bool
  | [] => needle.isEmpty
  | c :: rest => needle.isPrefixOf (c :: rest) || charListIncludes needle rest

/-- JS `haystack.includes(pat)`: contiguous-substring test. -/
def strIncludes (haystack pat : String) : Bool :=
  charListIncludes pat.toList haystack.toList

/-- The fixed marker set tested by `detectActions` in `App.tsx`, in source order. -/
def CODE_MARKERS : List String :=
  ["\x7b", "function", "const ", "import ", "</div>", "public class", "def ", "=>"]

/-- The `isCode` heuristic inside `detectActions`:
`const text = clipboardText.toLowerCase();` then a disjunction of
`text.includes(...)` over the eight fixed markers. -/
def detectIsCode (clipboardText : String) : Bool :=
  let text := strToLower clipboardText
  strIncludes text "\x7b" || strIncludes text "function" || strIncludes text "const " ||
  strIncludes text "import " || strIncludes text "</div>" || strIncludes text "public class" ||
  strIncludes text "def " || strIncludes text "=>"

/-- An entry of the `PRESETS` table in `App.tsx` (the `icon` field is UI-only
and omitted). -/
structure PresetAction where
  id : String
  label : String
  prompt : String
  category : String
deriving DecidableEq, Repr

/-- The `PRESETS` table from `App.tsx`. -/
def PRESETS : List PresetAction :=
  [ { id := "fix-grammar", label := "Fix Grammar & Style",
      prompt := "Reword this to be grammatically correct, professional, and clear: ",
      category := "text" },
    { id := "translate-sinhala", label := "Translate to Sinhala",
      prompt := "Translate this text accurately to Sinhala: ", category := "text" },
    { id := "convert-camel", label := "CamelCase Converter",
      prompt := "Convert the following text or variable names to camelCase: ",
      category := "text" },
    { id := "explain-code", label := "Explain Code Logic",
      prompt := "Explain how this code works in simple terms: ", category := "code" },
    { id := "refactor-code", label := "Optimize & Refactor",
      prompt := "Refactor this code for better performance, clean code principles, and readability: ",
      category := "code" },
    { id := "summarize", label := "Smart Summary",
      prompt := "Summarize the key points of this text in concise bullet points: ",
      category := "text" },
    { id := "bug-finder", label := "Find Potential Bugs",
      prompt := "Review this code and identify any potential bugs, security risks, or edge cases: ",
      category := "code" } ]

/-- `detectActions` from `App.tsx` (the part computing the filtered list):
presets whose category is `"all"` or matches the code/text detection, further
filtered by a case-insensitive label search when `query` is truthy. -/
def detectActions (clipboardText query : String) : List PresetAction :=
  let isCode := detectIsCode clipboardText
  let filtered := PRESETS.filter
    (fun p => p.category = "all" ∨ (if isCode then p.category = "code" else p.category = "text"))
  if query = "" then filtered
  else filtered.filter (fun a => strIncludes (strToLower a.label) (strToLower query))

/-- The argument `runAI` receives: a preset `Action` object or the raw query
string (the custom-prompt path). -/
inductive RunArg where
  | preset (a : PresetAction)
  | custom (q : String)
deriving DecidableEq, Repr

/-- The Enter-key dispatch in `handleKeyDown` (view `"actions"`):
`if (actions.length > 0) runAI(actions[selectedIndex]); else if (query.length > 2) runAI(query);`. -/
def enterDispatch (actions : List PresetAction) (selectedIndex : Nat) (query : String) :
    Option RunArg :=
  if actions.length > 0 then (actions.get? selectedIndex).map RunArg.preset
  else if query.length > 2 then some (RunArg.custom query)
  else none

/-- `const promptPrefix = typeof action === "string" ? action + ": " : action.prompt;`
from `runAI`. -/
def promptPrefixOf : RunArg → String
  | RunArg.preset a => a.prompt
  | RunArg.custom q => q ++ ": "

/-- The single user message sent to the remote transform:
`` `${promptPrefix}\n\n${clipboardText}` ``. -/
def userMessageOf (arg : RunArg) (clipboardText : String) : String :=
  promptPrefixOf arg ++ "\n\n" ++ clipboardText

/-! ### Remote transform response handling (runAI in App.tsx) -/

/-- JS `String.prototype.trim`: strip leading and trailing whitespace. -/
def jsTrim (s : String) : String :=
  String.mk (((s.toList.dropWhile Char.isWhitespace).reverse.dropWhile
    Char.isWhitespace).reverse)

/-- `message` object of a choice in the chat-completion response. -/
structure ApiMessage where
  content : String
deriving DecidableEq, Repr

/-- One element of the `choices` array. -/
structure ApiChoice where
  message : ApiMessage
deriving DecidableEq, Repr

/-- The provider `error` object; its `message` field may be absent. -/
structure ApiError where
  message : Option String
deriving DecidableEq, Repr

/-- The parsed JSON response body: `choices` may be absent, `error` may be absent. -/
structure ApiResponse where
  choices : Option (List ApiChoice)
  error : Option ApiError
deriving DecidableEq, Repr

/-- The generic failure message thrown when `choices` is absent and the
provider error message is missing or falsy:
`throw new Error(data.error?.message || "Invalid API Key or Rate Limit")`. -/
def genericApiError : String := "Invalid API Key or Rate Limit"

/-- `data.error?.message || "Invalid API Key or Rate Limit"`: optional chaining
yields the generic message when `error` or `message` is absent; a present but
empty (falsy) message also falls back to the generic one. -/
def thrownMessage (data : ApiResponse) : String :=
  match data.error with
  | some e =>
    match e.message with
    | some m => if m = "" then genericApiError else m
    | none => genericApiError
  | none => genericApiError

/-- Message of the TypeError raised by `data.choices[0].message` when
`choices` is present but empty (`choices[0]` is `undefined`). -/
def typeErrorUndefined : String := "Cannot read properties of undefined (reading message)"

/-- The response-processing core of `runAI`:
`if (!data.choices) throw new Error(data.error?.message || "...");
const output = data.choices[0].message.content.trim();` — a thrown error is
caught by the surrounding `catch` and carried as `Except.error` with the
`err.message` payload. -/
def processResponse (data : ApiResponse) : Except String String :=
  match data.choices with
  | none => Except.error (thrownMessage data)
  | some [] => Except.error typeErrorUndefined
  | some (c :: _) => Except.ok (jsTrim c.message.content)

/-- The renderer state touched by the tail of `runAI`: the `result` state,
the history and the OS clipboard (written via `electronClipboard.writeText`). -/
structure RunState where
  result : String
  historyItems : List HistItem
  osClipboard : String
deriving DecidableEq, Repr

/-- Effect of `runAI` once the response body `data` is parsed: on success
`setResult(output)` and `electronClipboard.writeText(output)`; on a thrown
error the `catch` block runs `` setResult(`Error: ${err.message}`) `` and
touches neither the history nor the clipboard.  (All messages thrown in this
path are non-empty, so the `|| 'Check your internet or API key'` fallback in
the catch never fires.) -/
def applyResponse (data : ApiResponse) (s : RunState) : RunState :=
  match processResponse data with
  | Except.ok out => { s with result := out, osClipboard := out }
  | Except.error m => { s with result := "Error: " ++ m }

/-! ### Clipboard watcher polling (main.cjs and the alternate variant) -/

/-- One polling tick of `main.cjs` (tray variant):
`const currentText = clipboard.readText();
if (currentText && currentText !== lastText) { lastText = currentText; send(...) }`.
Returns the updated `lastText` and whether a `clipboard-changed` event was sent. -/
def pollStepMain (lastText currentText : String) : String × Bool :=
  if currentText ≠ "" ∧ currentText ≠ lastText then (currentText, true)
  else (lastText, false)

/-- One polling tick of the alternate main-process variant:
`if (currentText !== lastText) { lastText = currentText; send(...) }`. -/
def pollStepSimple (lastText currentText : String) : String × Bool :=
  if currentText ≠ lastText then (currentText, true) else (lastText, false)

/-- Event trace of a sequence of polled text reads under the `main.cjs` step. -/
def pollEventsMain (lastText : String) : List String → List Bool
  | [] => []
  | r :: rs => (pollStepMain lastText r).2 :: pollEventsMain (pollStepMain lastText r).1 rs

/-- Event trace of a sequence of polled text reads under the alternate
variant's step. -/
def pollEventsSimple (lastText : String) : List String → List Bool
  | [] => []
  | r :: rs => (pollStepSimple lastText r).2 :: pollEventsSimple (pollStepSimple lastText r).1 rs

/-! ### Pinned-history variant, modelled from the spec -/

/-- Modelled from the spec: the `pinned` flag is carried by history entries only
in later prototype variants of this repository, which are not among the source
files here.  Per the data model, `pinned` is a boolean that survives truncation
preferentially. -/
structure PinnedItem where
  id : Nat
  content : String
  timestamp : String
  pinned : Bool
deriving DecidableEq, Repr

/-- Modelled from the spec: `append(content, kind)` of the pinned-history
variant, absent from the source files here.  Per the spec it builds a new
(unpinned) entry with a fresh id, removes any existing entry with identical
content, prepends the new entry, re-sorts pinned-first, and truncates to the
cap, evicting from the unpinned tail first. -/
def appendPinned (cap now : Nat) (ts content : String) (prev : List PinnedItem) :
    List PinnedItem :=
  let filtered := prev.filter (fun i => i.content ≠ content)
  let prepended := ({ id := now, content := content, timestamp := ts, pinned := false } :
    PinnedItem) :: filtered
  let sorted := prepended.filter (fun i => i.pinned) ++ prepended.filter (fun i => ¬i.pinned)
  sorted.take cap

/-! ### Helper lemmas -/

/-- `charListIncludes` decides contiguous-substring containment. -/
theorem charListIncludes_iff (n : List Char) :
    ∀ h : List Char, charListIncludes n h = true ↔ n <:+: h
  | [] => by
      simp [charListIncludes, List.isEmpty_iff, List.infix_nil]
  | c :: rest => by
      rw [charListIncludes, Bool.or_eq_true, List.isPrefixOf_iff_prefix,
        charListIncludes_iff n rest, List.infix_cons_iff]

/-- The freshly built entry sits at the front of a `saveToHistory` result. -/
theorem saveToHistory_head (now : Nat) (ts c : String) (prev : List HistItem) :
    (saveToHistory now ts c prev).head? = some ⟨now, c, ts⟩ := by
  simp [saveToHistory]

/-- One `saveToHistory` call yields a list of length at most 30. -/
theorem saveToHistory_length (now : Nat) (ts c : String) (prev : List HistItem) :
    (saveToHistory now ts c prev).length ≤ 30 := by
  simp [saveToHistory]

/-! ### Claim theorems -/

/-- Claim C9 (amended): classification is a pure function of the content; a
text clip is classified as code exactly when its lowercased content contains
one of the eight fixed markers — where the closing-tag marker is specifically
`"</div>"`, not an arbitrary closing HTML tag — and the empty string is
classified as text. -/
theorem detectIsCode_characterization :
    (∀ s : String, detectIsCode s = true ↔
      ∃ m ∈ CODE_MARKERS, m.toList <:+: (strToLower s).toList) ∧
    detectIsCode "" = false := by
  constructor
  · intro s
    simp only [detectIsCode, strIncludes, Bool.or_eq_true, charListIncludes_iff,
      CODE_MARKERS, List.mem_cons, List.not_mem_nil, or_false, exists_eq_or_imp,
      exists_eq_left]
    tauto
  · decide

/-- Claim C9 (counterexample): the content `"</p>"` contains a closing HTML
tag (itself), yet `detectActions` classifies it as text, because the only
closing-tag marker the code tests is `"</div>"`. -/
theorem detectIsCode_closing_tag_cex :
    strIncludes (strToLower "</p>") ("</" ++ "p" ++ ">") = true ∧
    detectIsCode "</p>" = false ∧ detectIsCode "</div>" = true := by decide

/-- Claim C2: appending content `C` that is already present leaves exactly one
entry with content `C`; it is the freshly inserted one, at the front, carrying
the fresh id, and the prior occurrence has been removed. -/
theorem saveToHistory_dedupes (now : Nat) (ts c : String) (prev : List HistItem)
    (hmem : ∃ i ∈ prev, i.content = c) :
    (saveToHistory now ts c prev).head? = some ⟨now, c, ts⟩ ∧
    (saveToHistory now ts c prev).filter (fun i => i.content = c) = [⟨now, c, ts⟩] ∧
    ∀ i ∈ saveToHistory now ts c prev, i.content = c → i = ⟨now, c, ts⟩ := by
  refine ⟨saveToHistory_head now ts c prev, ?_, ?_⟩
  · simp only [saveToHistory, List.take_succ_cons, List.filter_cons, decide_eq_true_eq,
      if_true, List.cons.injEq, true_and]
    rw [List.filter_eq_nil_iff]
    intro a ha
    have := List.mem_filter.mp (List.take_subset 29 _ ha)
    simpa using this.2
  · intro i hi hic
    simp only [saveToHistory, List.take_succ_cons, List.mem_cons] at hi
    rcases hi with rfl | hi
    · rfl
    · have := List.mem_filter.mp (List.take_subset 29 _ hi)
      simp [hic] at this

/-- Witness for C2 at a concrete history already containing the content. -/
theorem saveToHistory_dedupes_witness :
    (∃ i ∈ [(⟨1, "a", "s"⟩ : HistItem), ⟨2, "b", "s"⟩], i.content = "a") ∧
    (saveToHistory 5 "t" "a" [⟨1, "a", "s"⟩, ⟨2, "b", "s"⟩]).head? = some ⟨5, "a", "t"⟩ ∧
    (saveToHistory 5 "t" "a" [⟨1, "a", "s"⟩, ⟨2, "b", "s"⟩]).filter
      (fun i => i.content = "a") = [⟨5, "a", "t"⟩] :=
  ⟨by decide,
    (saveToHistory_dedupes 5 "t" "a" _ ⟨⟨1, "a", "s"⟩, by decide⟩).1,
    (saveToHistory_dedupes 5 "t" "a" [⟨1, "a", "s"⟩, ⟨2, "b", "s"⟩]
      ⟨⟨1, "a", "s"⟩, by decide⟩).2.1⟩

/-- Claim C3: starting from a history of length at most 30, no sequence of
append operations ever makes the history longer than the cap of 30. -/
theorem appendSeq_cap (prev : List HistItem) (ops : List (Nat × String × String))
    (h : prev.length ≤ 30) : (appendSeq prev ops).length ≤ 30 := by
  induction ops generalizing prev with
  | nil => exact h
  | cons op rest ih =>
    rw [appendSeq, List.foldl_cons]
    exact ih _ (saveToHistory_length op.1 op.2.1 op.2.2 prev)

/-- Witness for C3 at a concrete starting history and operation sequence. -/
theorem appendSeq_cap_witness :
    ([(⟨1, "a", "s"⟩ : HistItem)].length ≤ 30) ∧
    (appendSeq [⟨1, "a", "s"⟩] [(2, "t", "b"), (3, "u", "a")]).length ≤ 30 :=
  ⟨by decide, appendSeq_cap [⟨1, "a", "s"⟩] [(2, "t", "b"), (3, "u", "a")] (by decide)⟩

/-- In `main.cjs`, after processing a read `r`, processing the same read again
never emits. -/
theorem pollStepMain_repeat (l r : String) :
    (pollStepMain (pollStepMain l r).1 r).2 = false := by
  by_cases h : r ≠ "" ∧ r ≠ l <;> simp [pollStepMain, h]

/-- In the alternate variant, after processing a read `r`, processing the same
read again never emits. -/
theorem pollStepSimple_repeat (l r : String) :
    (pollStepSimple (pollStepSimple l r).1 r).2 = false := by
  by_cases h : r ≠ l <;> simp [pollStepSimple, h]

/-- Run-level form for `main.cjs`: in any polling trace, the event slot of the
second of two consecutive identical reads is `false`. -/
theorem pollEventsMain_consec (r : String) (post : List String) :
    ∀ (pre : List String) (l : String),
      (pollEventsMain l (pre ++ r :: r :: post)).get? (pre.length + 1) = some false
  | [], l => by
      simp only [List.nil_append, pollEventsMain, List.length_nil, List.get?_cons_succ,
        List.get?_cons_zero]
      rw [pollStepMain_repeat]
  | p :: ps, l => by
      simp only [List.cons_append, pollEventsMain, List.length_cons, List.get?_cons_succ]
      exact pollEventsMain_consec r post ps _

/-- Run-level form for the alternate variant: in any polling trace, the event
slot of the second of two consecutive identical reads is `false`. -/
theorem pollEventsSimple_consec (r : String) (post : List String) :
    ∀ (pre : List String) (l : String),
      (pollEventsSimple l (pre ++ r :: r :: post)).get? (pre.length + 1) = some false
  | [], l => by
      simp only [List.nil_append, pollEventsSimple, List.length_nil, List.get?_cons_succ,
        List.get?_cons_zero]
      rw [pollStepSimple_repeat]
  | p :: ps, l => by
      simp only [List.cons_append, pollEventsSimple, List.length_cons, List.get?_cons_succ]
      exact pollEventsSimple_consec r post ps _

/-- Claim C5 (amended): the alternate variant emits exactly when the newly read
text differs from the last-observed one; `main.cjs` emits exactly when the new
text is non-empty and differs; in both variants an unchanged read emits
nothing and, in any polling trace, no two consecutive identical reads produce
more than one event (the second slot is always `false`). -/
theorem watcher_event_characterization :
    (∀ l r : String, (pollStepSimple l r).2 = true ↔ r ≠ l) ∧
    (∀ l r : String, (pollStepMain l r).2 = true ↔ (r ≠ "" ∧ r ≠ l)) ∧
    (∀ (l : String) (pre : List String) (r : String) (post : List String),
      (pollEventsMain l (pre ++ r :: r :: post)).get? (pre.length + 1) = some false) ∧
    (∀ (l : String) (pre : List String) (r : String) (post : List String),
      (pollEventsSimple l (pre ++ r :: r :: post)).get? (pre.length + 1) = some false) := by
  refine ⟨?_, ?_, ?_, ?_⟩
  · intro l r; by_cases h : r ≠ l <;> simp [pollStepSimple, h]
  · intro l r; by_cases h : r ≠ "" ∧ r ≠ l <;> simp [pollStepMain, h]
  · intro l pre r post; exact pollEventsMain_consec r post pre l
  · intro l pre r post; exact pollEventsSimple_consec r post pre l

/-- Claim C5 (counterexample): in `main.cjs`, reading an empty clipboard text
that differs from the last-observed text `"a"` emits no event, so emission is
not exactly "the newly read text differs from the last-observed text". -/
theorem watcher_empty_read_cex :
    ("" : String) ≠ "a" ∧ (pollStepMain "a" "").2 = false ∧
    (pollStepSimple "a" "").2 = true := by decide

/-- Claim C1: the `historyItems` initializer yields the empty history when the
persisted blob is absent, but when a blob is present and `JSON.parse` rejects
it the exception escapes the initializer — startup crashes instead of falling
back to the empty history. -/
theorem rehydrateHistory_corrupt_crashes (parse : String → Option (List HistItem))
    (hfail : parse "\x7boops" = none) :
    rehydrateHistory parse none = Except.ok [] ∧
    rehydrateHistory parse (some "\x7boops") = Except.error () := by
  refine ⟨rfl, ?_⟩
  simp [rehydrateHistory, hfail]

/-- Witness for C1 with a parse oracle rejecting the concrete corrupt blob. -/
theorem rehydrateHistory_corrupt_crashes_witness :
    rehydrateHistory (fun _ => none) none = Except.ok [] ∧
    rehydrateHistory (fun _ => none) (some "\x7boops") = Except.error () :=
  rehydrateHistory_corrupt_crashes (fun _ => none) rfl

/-- Claim C4: while privacy mode is active a `clipboard-changed` event leaves
the entire renderer state — history included — unchanged; with privacy mode
off, a non-empty text differing from the current clipboard snapshot is
captured at the front of the history again. -/
theorem privacyMode_gates_capture (now : Nat) (ts : String) :
    (∀ (s : AppState) (text : String), s.isPrivacyMode = true →
      handleClipboard now ts text s = s) ∧
    (∀ (s : AppState) (text : String), s.isPrivacyMode = false → text ≠ "" →
      text ≠ s.clipboardText →
      (handleClipboard now ts text s).clipboardText = text ∧
      (handleClipboard now ts text s).historyItems.head? = some ⟨now, text, ts⟩) := by
  constructor
  · intro s text h
    simp [handleClipboard, h]
  · intro s text h h1 h2
    simp [handleClipboard, h, h1, h2, saveToHistory_head]

/-- Witness for C4: a concrete event dropped under privacy mode and captured
after deactivation. -/
theorem privacyMode_gates_capture_witness :
    handleClipboard 5 "t" "x" ⟨"", [], true⟩ = ⟨"", [], true⟩ ∧
    ((handleClipboard 5 "t" "x" ⟨"", [], false⟩).clipboardText = "x" ∧
      (handleClipboard 5 "t" "x" ⟨"", [], false⟩).historyItems.head? =
        some ⟨5, "x", "t"⟩) :=
  ⟨(privacyMode_gates_capture 5 "t").1 ⟨"", [], true⟩ "x" rfl,
    (privacyMode_gates_capture 5 "t").2 ⟨"", [], false⟩ "x" rfl (by decide) (by decide)⟩

/-- Claim C6: when the response body has no `choices` field, `runAI` produces
an error result — carrying the provider error message when a non-empty one is
present, else the generic failure message — and leaves both the history and
the OS clipboard untouched. -/
theorem runAI_no_choices_error (data : ApiResponse) (s : RunState)
    (hnone : data.choices = none) :
    (applyResponse data s).historyItems = s.historyItems ∧
    (applyResponse data s).osClipboard = s.osClipboard ∧
    (applyResponse data s).result = "Error: " ++ thrownMessage data ∧
    (∀ m : String, data.error = some ⟨some m⟩ → m ≠ "" → thrownMessage data = m) ∧
    (data.error = none → thrownMessage data = genericApiError) := by
  refine ⟨?_, ?_, ?_, ?_, ?_⟩
  · simp [applyResponse, processResponse, hnone]
  · simp [applyResponse, processResponse, hnone]
  · simp [applyResponse, processResponse, hnone]
  · intro m hm hne; simp [thrownMessage, hm, hne]
  · intro hm; simp [thrownMessage, hm]

/-- Witness for C6: a concrete choices-less response with provider message
`"boom"` against a concrete state. -/
theorem runAI_no_choices_error_witness :
    (applyResponse ⟨none, some ⟨some "boom"⟩⟩ ⟨"", [⟨1, "x", "t"⟩], "old"⟩).historyItems
      = [⟨1, "x", "t"⟩] ∧
    (applyResponse ⟨none, some ⟨some "boom"⟩⟩ ⟨"", [⟨1, "x", "t"⟩], "old"⟩).osClipboard
      = "old" ∧
    (applyResponse ⟨none, some ⟨some "boom"⟩⟩ ⟨"", [⟨1, "x", "t"⟩], "old"⟩).result
      = "Error: " ++ "boom" := by
  have h := runAI_no_choices_error ⟨none, some ⟨some "boom"⟩⟩ ⟨"", [⟨1, "x", "t"⟩], "old"⟩ rfl
  exact ⟨h.1, h.2.1, by rw [h.2.2.1, h.2.2.2.1 "boom" rfl (by decide)]⟩

/-- Claim C10: on a successful transform the stored result and the text written
to the OS clipboard are both `choices[0].message.content` trimmed; whenever
trimming changes the content, the untrimmed content is not what gets stored. -/
theorem runAI_trims_output (data : ApiResponse) (s : RunState) (c : ApiChoice)
    (rest : List ApiChoice) (hc : data.choices = some (c :: rest)) :
    (applyResponse data s).result = jsTrim c.message.content ∧
    (applyResponse data s).osClipboard = jsTrim c.message.content ∧
    (jsTrim c.message.content ≠ c.message.content →
      (applyResponse data s).result ≠ c.message.content) := by
  refine ⟨?_, ?_, ?_⟩
  · simp [applyResponse, processResponse, hc]
  · simp [applyResponse, processResponse, hc]
  · intro hne
    simp only [applyResponse, processResponse, hc]
    exact hne

/-- Witness for C10 at a concrete success response carrying padded content. -/
theorem runAI_trims_output_witness :
    (applyResponse ⟨some [⟨⟨"  Bonjour  "⟩⟩], none⟩ ⟨"", [], "old"⟩).result
      = jsTrim "  Bonjour  " ∧
    (applyResponse ⟨some [⟨⟨"  Bonjour  "⟩⟩], none⟩ ⟨"", [], "old"⟩).osClipboard
      = jsTrim "  Bonjour  " ∧
    (applyResponse ⟨some [⟨⟨"  Bonjour  "⟩⟩], none⟩ ⟨"", [], "old"⟩).result
      ≠ "  Bonjour  " := by
  have h := runAI_trims_output ⟨some [⟨⟨"  Bonjour  "⟩⟩], none⟩ ⟨"", [], "old"⟩
    ⟨⟨"  Bonjour  "⟩⟩ [] rfl
  exact ⟨h.1, h.2.1, h.2.2 (by decide)⟩

/-- Claim C7 (spec-modelled pinned variant): a pinned entry whose content is
not the one being re-inserted is never evicted by cap truncation — with the
previous history within the cap, every such pinned entry survives the append,
so eviction only ever removes unpinned entries. -/
theorem appendPinned_never_evicts_pinned (cap now : Nat) (ts content : String)
    (prev : List PinnedItem) (hlen : prev.length ≤ cap) (e : PinnedItem)
    (hpin : e.pinned = true) (hmem : e ∈ prev) (hdiff : e.content ≠ content) :
    e ∈ appendPinned cap now ts content prev := by
  have hefil : e ∈ prev.filter (fun i => i.content ≠ content) :=
    List.mem_filter.mpr ⟨hmem, by simp [hdiff]⟩
  have heA : e ∈ (({ id := now, content := content, timestamp := ts, pinned := false } :
      PinnedItem) :: prev.filter (fun i => i.content ≠ content)).filter
      (fun i => i.pinned) :=
    List.mem_filter.mpr ⟨List.mem_cons_of_mem _ hefil, hpin⟩
  have hA : ((({ id := now, content := content, timestamp := ts, pinned := false } :
      PinnedItem) :: prev.filter (fun i => i.content ≠ content)).filter
      (fun i => i.pinned)).length ≤ cap := by
    calc ((({ id := now, content := content, timestamp := ts, pinned := false } :
        PinnedItem) :: prev.filter (fun i => i.content ≠ content)).filter
        (fun i => i.pinned)).length
        = ((prev.filter (fun i => i.content ≠ content)).filter
            (fun i => i.pinned)).length := by simp [List.filter_cons]
      _ ≤ (prev.filter (fun i => i.content ≠ content)).length :=
          List.length_filter_le _ _
      _ ≤ prev.length := List.length_filter_le _ _
      _ ≤ cap := hlen
  show e ∈ ((({ id := now, content := content, timestamp := ts, pinned := false } :
      PinnedItem) :: prev.filter (fun i => i.content ≠ content)).filter
      (fun i => i.pinned) ++
    (({ id := now, content := content, timestamp := ts, pinned := false } :
      PinnedItem) :: prev.filter (fun i => i.content ≠ content)).filter
      (fun i => ¬i.pinned)).take cap
  rw [List.take_append_eq_append_take, List.take_of_length_le hA]
  exact List.mem_append_left _ heA

/-- Witness for C7: cap 2, a pinned and an unpinned entry, one eviction — the
pinned entry survives and the unpinned one is the one evicted. -/
theorem appendPinned_never_evicts_pinned_witness :
    (⟨1, "a", "s", true⟩ : PinnedItem) ∈ appendPinned 2 9 "t" "c"
      [⟨1, "a", "s", true⟩, ⟨2, "b", "s", false⟩] ∧
    (appendPinned 2 9 "t" "c" [⟨1, "a", "s", true⟩, ⟨2, "b", "s", false⟩]).length = 2 ∧
    (⟨2, "b", "s", false⟩ : PinnedItem) ∉ appendPinned 2 9 "t" "c"
      [⟨1, "a", "s", true⟩, ⟨2, "b", "s", false⟩] :=
  ⟨appendPinned_never_evicts_pinned 2 9 "t" "c" [⟨1, "a", "s", true⟩, ⟨2, "b", "s", false⟩]
      (by decide) ⟨1, "a", "s", true⟩ rfl (by decide) (by decide),
    by decide, by decide⟩

/-- Claim C8 (amended): when no preset matches and the query is longer than
two characters, Enter dispatches the raw query to `runAI`, whose
`promptPrefix` is the query with `": "` appended — so the single user message
is `query ++ ": " ++ "\n\n" ++ content`, not `query ++ "\n\n" ++ content`. -/
theorem custom_prompt_message (actions : List PresetAction) (i : Nat) (query ct : String)
    (hempty : actions = []) (hlen : query.length > 2) :
    enterDispatch actions i query = some (RunArg.custom query) ∧
    userMessageOf (RunArg.custom query) ct = query ++ ": " ++ "\n\n" ++ ct := by
  subst hempty
  constructor
  · simp [enterDispatch, hlen]
  · rfl

/-- Witness for C8 at a concrete query matching no preset. -/
theorem custom_prompt_message_witness :
    detectActions "hello world" "qqq" = [] ∧
    enterDispatch (detectActions "hello world" "qqq") 0 "qqq"
      = some (RunArg.custom "qqq") ∧
    userMessageOf (RunArg.custom "qqq") "hello world"
      = "qqq" ++ ": " ++ "\n\n" ++ "hello world" :=
  ⟨by decide,
    (custom_prompt_message (detectActions "hello world" "qqq") 0 "qqq" "hello world"
      (by decide) (by decide)).1,
    (custom_prompt_message [] 0 "qqq" "hello world" rfl (by decide)).2⟩

/-- Claim C8 (counterexample): for query `"qqq"` (no matching preset, length
3) and clipboard `"hello world"`, the dispatched user message is not the raw
query followed by the separator and the content — the code appends `": "` to
the query first. -/
theorem custom_prompt_message_cex :
    detectActions "hello world" "qqq" = [] ∧
    enterDispatch (detectActions "hello world" "qqq") 0 "qqq"
      = some (RunArg.custom "qqq") ∧
    userMessageOf (RunArg.custom "qqq") "hello world"
      ≠ "qqq" ++ "\n\n" ++ "hello world" := by decide
